import Mathlib

/-!
# Verification of the ai-task-agent workflow core

Shallow embedding of the workflow execution engine
(`src/backend/workflows/workflow_engine.py`), the workflow scheduler
(`src/backend/workflows/scheduler.py`) and the orchestrator's task
decomposition (`src/backend/agents/orchestrator.py`), together with
theorems settling the spec claims about them.

Modelling conventions:
* Python dicts become association lists with in-place update semantics
  (`alistSet` replaces the value of an existing key in place and appends
  new keys, matching CPython insertion-order dicts).
* Wall-clock time (`datetime.now`) becomes a `Nat` tick counter threaded
  through the functions; every `now()` call reads the counter and bumps it.
* Python exceptions become `Except String`; a `try/except` becomes a
  `match` on the `Except` value.
* The bodies of `_execute_step` (tool/agent/parallel/... dispatch) and of
  the `simpleeval` expression evaluator are external effects from the
  engine loop's point of view; they are abstracted as oracle parameters
  (`se : String → Nat → Except String Dict`, keyed by step id and by the
  index of the call for that step, and
  `ec : String → Ctx → Except String Bool`).  All theorems quantify over
  these oracles.
* Emitted events (`emit_event`) and awaited effects (`_execute_step`
  calls, `asyncio.sleep`) are recorded in a trace.  Event handlers never
  propagate exceptions in the source (`emit_event` catches them), so the
  trace append is total.
-/

namespace AiTaskAgent

/-- Association-list lookup, mirroring Python `dict.get(k)`. -/
def alistGet {α : Type} (l : List (String × α)) (k : String) : Option α :=
  match l with
  | [] => none
  | (k', v) :: rest => if k' = k then some v else alistGet rest k

/-- Association-list update, mirroring Python `d[k] = v`: replaces the value
of an existing key in place, otherwise appends the new binding. -/
def alistSet {α : Type} (l : List (String × α)) (k : String) (v : α) :
    List (String × α) :=
  match l with
  | [] => [(k, v)]
  | (k', v') :: rest =>
    if k' = k then (k, v) :: rest else (k', v') :: alistSet rest k v

/-- Python `{**a, **b}`: `b`'s entries override `a`'s. -/
def dictMerge {α : Type} (a b : List (String × α)) : List (String × α) :=
  b.foldl (fun acc p => alistSet acc p.1 p.2) a

/-- A Python dict with string keys and string-ish values, as returned by the
step handlers (`_execute_tool_step` etc. all return dicts). -/
abbrev Dict := List (String × String)

/-- A value stored in the runtime context: either a scalar seeded by the
caller / `workflow.variables`, or a step-result dict. -/
inductive DVal
  | str (s : String)
  | dict (d : Dict)
deriving DecidableEq, Repr

/-- The runtime context `execution.context`. -/
abbrev Ctx := List (String × DVal)

/-! ## Workflow engine data model (`workflow_engine.py` lines 14-87) -/

/-- `StepType` (lines 14-21). -/
inductive StepType
  | tool | agent | condition | loop | parallel | wait | transform
deriving DecidableEq, Repr

/-- `StepStatus` (lines 24-29). -/
inductive StepStatus
  | pending | running | completed | failed | skipped
deriving DecidableEq, Repr

/-- `WorkflowStep` (lines 32-47).  `timeout` is carried as data; the engine
loop never reads it. -/
structure WorkflowStep where
  id : String
  name : String
  type : StepType := .tool
  config : Ctx := []
  inputs : List (String × String) := []
  condition : Option String := none
  on_error : String := "fail"
  max_retries : Nat := 3
  timeout : Nat := 300
  status : StepStatus := .pending
  result : Option Dict := none
  error : Option String := none
  started_at : Option Nat := none
  completed_at : Option Nat := none
deriving DecidableEq, Repr

/-- `Workflow` (lines 50-69); the `created_at`/`updated_at`/`triggers`
metadata plays no role in execution and is omitted. -/
structure Workflow where
  id : String
  name : String
  description : String := ""
  version : String := "1.0"
  steps : List WorkflowStep := []
  «variables» : Ctx := []
  created_by : String := ""
  tags : List String := []
deriving DecidableEq, Repr

/-- `WorkflowExecution` (lines 72-87). -/
structure WorkflowExecution where
  id : String
  workflow_id : String
  status : String := "running"
  current_step : Nat := 0
  started_at : Nat := 0
  completed_at : Option Nat := none
  context : Ctx := []
  step_results : List (String × Dict) := []
  error : Option String := none
deriving DecidableEq, Repr

/-- Trace entries: events emitted through `emit_event`, plus the awaited
effects of the loop (`_execute_step` calls as `attempt`, `asyncio.sleep`). -/
inductive EngineEvent
  | workflow_started (execId wfId wfName : String)
  | step_skipped (stepId reason : String)
  | step_started (stepId stepName : String)
  | step_completed (stepId : String)
  | workflow_completed (execId : String)
  | workflow_failed (execId msg : String)
  | attempt (stepId : String) (callIdx : Nat)
  | sleep (seconds : Nat)
deriving DecidableEq, Repr

/-- Whether the `for`-loop body finished normally (possibly via `continue`)
or an exception is propagating out of it. -/
inductive StepFlow
  | next
  | raised (msg : String)
deriving DecidableEq, Repr

/-- Python truthiness of `step.condition : Optional[str]` as used in
`if step.condition and ...` (line 136): `None` and `""` are falsy. -/
def strOptTruthy : Option String → Bool
  | none => false
  | some s => s ≠ ""

/-- `WorkflowEngine._evaluate_condition` (lines 403-416): any evaluation
failure is logged and treated as `False`. -/
def evaluate_condition (ec : String → Ctx → Except String Bool)
    (condition : String) (context : Ctx) : Bool :=
  match ec condition context with
  | .ok b => b
  | .error _ => false

/-- The retry loop of `execute` (lines 180-190): for `retry` in
`range(max_retries)`, sleep `2 ** retry`, call `_execute_step` again
(call index `retry + 1`); break on success; on the last retry's failure
re-raise.  `remaining` is the number of loop iterations left
(`max_retries - retry`); the caller starts it at `max_retries ≥ 1`, and
since the last iteration either breaks or re-raises, the `remaining = 0`
base case is unreachable from the caller. -/
def retryFrom (se : Nat → Except String Dict) (stepId : String)
    (max_retries : Nat) :
    Nat → Nat → List EngineEvent → List EngineEvent × Except String Dict
  | 0, _, trace => (trace, .error "")
  | remaining + 1, retry, trace =>
    let trace := trace ++ [.sleep (2 ^ retry), .attempt stepId (retry + 1)]
    match se (retry + 1) with
    | .ok r => (trace, .ok r)
    | .error re =>
      if retry = max_retries - 1 then (trace, .error re)
      else retryFrom se stepId max_retries remaining (retry + 1) trace

/-- Result of processing a single step of the `execute` loop. -/
structure StepRun where
  step : WorkflowStep
  exec : WorkflowExecution
  tick : Nat
  trace : List EngineEvent
  flow : StepFlow
deriving DecidableEq, Repr

/-- One iteration of the `execute` loop (lines 135-195), for the step the
cursor is on: condition guard, `_execute_step` call, and the
`on_error` policy (`skip` / `retry` with backoff / `fail`).  The step
record is mutated in place by the source; here the mutated step is
returned. -/
def process_step (se : String → Nat → Except String Dict)
    (ec : String → Ctx → Except String Bool)
    (step : WorkflowStep) (exec : WorkflowExecution) (tick : Nat) : StepRun :=
  -- lines 136-142: condition guard, skip and continue when falsy
  if strOptTruthy step.condition ∧
      ¬ evaluate_condition ec (step.condition.getD "") exec.context then
    ⟨{ step with status := .skipped }, exec, tick,
      [.step_skipped step.id "condition_not_met"], .next⟩
  else
    -- lines 145-152: mark running, stamp started_at, emit step_started
    let step := { step with status := .running, started_at := some tick }
    let tick := tick + 1
    let trace := [EngineEvent.step_started step.id step.name,
                  EngineEvent.attempt step.id 0]
    match se step.id 0 with
    | .ok result =>
      -- lines 155-167: success on the initial attempt
      let step := { step with status := .completed, result := some result }
      let exec := { exec with
        step_results := alistSet exec.step_results step.id result }
      let exec :=
        if result ≠ [] then
          { exec with context :=
              alistSet exec.context (step.id ++ "_output") (.dict result) }
        else exec
      let trace := trace ++ [.step_completed step.id]
      -- line 195
      let step := { step with completed_at := some tick }
      ⟨step, exec, tick + 1, trace, .next⟩
    | .error e =>
      -- lines 169-193: on_error policy
      let step := { step with error := some e }
      if step.on_error = "skip" then
        let step := { step with status := .skipped }
        let trace := trace ++ [.step_skipped step.id e]
        -- line 195 is reached (no continue / raise on this path)
        let step := { step with completed_at := some tick }
        ⟨step, exec, tick + 1, trace, .next⟩
      else if step.on_error = "retry" ∧ 0 < step.max_retries then
        let rr := retryFrom (se step.id) step.id step.max_retries
          step.max_retries 0 []
        match rr.2 with
        | .ok r =>
          -- lines 183-186: success on a retry; note that neither
          -- execution.step_results nor execution.context is updated here
          let step := { step with status := .completed, result := some r }
          let step := { step with completed_at := some tick }
          ⟨step, exec, tick + 1, trace ++ rr.1, .next⟩
        | .error re =>
          -- line 190: final retry re-raises; step.status stays `running`
          ⟨step, exec, tick, trace ++ rr.1, .raised re⟩
      else
        -- lines 191-193: default `fail` policy
        let step := { step with status := .failed }
        ⟨step, exec, tick, trace, .raised e⟩

/-- `WorkflowEngine.cancel` (lines 435-442), applied to the execution it
looks up: flips a `running` execution to `cancelled` and stamps
`completed_at`; a no-op returning `False` otherwise. -/
def cancel (exec : WorkflowExecution) (tick : Nat) :
    WorkflowExecution × Bool :=
  if exec.status = "running" then
    ({ exec with status := "cancelled", completed_at := some tick }, true)
  else (exec, false)

/-- Result of the `for i, step in enumerate(workflow.steps)` loop. -/
structure LoopRun where
  steps : List WorkflowStep
  exec : WorkflowExecution
  tick : Nat
  trace : List EngineEvent
  err : Option String
deriving DecidableEq, Repr

/-- The `execute` loop (lines 132-195).  `cd i = true` models an external
`cancel(execution_id)` call landing at an await point while the engine is
on step `i` (cooperative concurrency: the single event loop runs `cancel`
between two awaited operations of the current step; `cancel` only touches
`execution.status` / `execution.completed_at`, which the loop body never
reads, so the landing point within the step is not observable).  The loop
itself contains no cancellation check, mirroring the source.  `err` carries
an exception propagating out of the loop, caught by `execute`. -/
def run_steps (se : String → Nat → Except String Dict)
    (ec : String → Ctx → Except String Bool) (cd : Nat → Bool) :
    List WorkflowStep → Nat → WorkflowExecution → Nat → LoopRun
  | [], _, exec, tick => ⟨[], exec, tick, [], none⟩
  | step :: rest, i, exec, tick =>
    -- line 133
    let exec := { exec with current_step := i }
    let sr := process_step se ec step exec tick
    -- externally delivered cancellation during step i (see above); its
    -- `datetime.now()` shares the current tick
    let exec' := if cd i then (cancel sr.exec sr.tick).1 else sr.exec
    match sr.flow with
    | .raised msg => ⟨sr.step :: rest, exec', sr.tick, sr.trace, some msg⟩
    | .next =>
      let lr := run_steps se ec cd rest (i + 1) exec' sr.tick
      ⟨sr.step :: lr.steps, lr.exec, lr.tick, sr.trace ++ lr.trace, lr.err⟩

/-- Result of `WorkflowEngine.execute`: the final state of the step records
(mutated in place by the source), the returned `WorkflowExecution`, and
the trace. -/
structure ExecRun where
  steps : List WorkflowStep
  exec : WorkflowExecution
  trace : List EngineEvent
deriving DecidableEq, Repr

/-- The fresh `WorkflowExecution` built at the top of `execute`
(lines 118-122): a `running` execution whose context merges
`workflow.variables` with, and overridden by, `initial_context`. -/
def init_exec (workflow : Workflow) (initial_context : Ctx)
    (execId : String) (tick : Nat) : WorkflowExecution :=
  { id := execId, workflow_id := workflow.id,
    context := dictMerge workflow.«variables» initial_context,
    started_at := tick }

/-- `WorkflowEngine.execute` (lines 112-215), continued: builds the
execution via `init_exec`, runs the step loop inside `try`, and translates
a propagating step failure into `status = "failed"` plus the error
message; on normal loop exit the status is set to `"completed"`
unconditionally. -/
def execute (se : String → Nat → Except String Dict)
    (ec : String → Ctx → Except String Bool) (cd : Nat → Bool)
    (workflow : Workflow) (initial_context : Ctx)
    (execId : String) (tick : Nat) : ExecRun :=
  let exec : WorkflowExecution := init_exec workflow initial_context execId tick
  let trace := [EngineEvent.workflow_started execId workflow.id workflow.name]
  let lr := run_steps se ec cd workflow.steps 0 exec (tick + 1)
  match lr.err with
  | none =>
    -- lines 197-203
    let exec := { lr.exec with
      status := "completed", completed_at := some lr.tick }
    ⟨lr.steps, exec, trace ++ lr.trace ++ [.workflow_completed execId]⟩
  | some msg =>
    -- lines 205-213
    let exec := { lr.exec with
      status := "failed", error := some msg, completed_at := some lr.tick }
    ⟨lr.steps, exec, trace ++ lr.trace ++ [.workflow_failed execId msg]⟩

/-! ## Orchestrator data model (`src/backend/agents/orchestrator.py`,
`src/backend/agents/base_agent.py`) -/

/-- `AgentRole` (`base_agent.py` lines 9-14). -/
inductive AgentRole
  | orchestrator | researcher | coder | analyst | executor
deriving DecidableEq, Repr

/-- The string value of the `str`-valued `AgentRole` enum. -/
def AgentRole.value : AgentRole → String
  | .orchestrator => "orchestrator"
  | .researcher => "researcher"
  | .coder => "coder"
  | .analyst => "analyst"
  | .executor => "executor"

/-- `AgentResult` (`base_agent.py` lines 61-68); the `thoughts` log is
omitted, `execution_time` is a tick count. -/
structure AgentResult where
  success : Bool
  output : String := ""
  artifacts : List (String × String) := []
  error : Option String := none
  execution_time : Nat := 0
deriving DecidableEq, Repr

/-- One entry of `TaskDecomposition.subtasks` (`orchestrator.py`
lines 18-24). -/
structure Subtask where
  id : String
  description : String
  agent : AgentRole
  status : String := "pending"
deriving DecidableEq, Repr

/-- `TaskDecomposition` (`orchestrator.py` lines 10-16). -/
structure TaskDecomposition where
  original_task : String
  subtasks : List Subtask := []
  dependencies : List (String × List String) := []
  completed : List (String × AgentResult) := []
deriving DecidableEq, Repr

/-- `TaskDecomposition.add_subtask` (lines 18-25). -/
def add_subtask (d : TaskDecomposition) (task_id description : String)
    (agent : AgentRole) (dependencies : List String) : TaskDecomposition :=
  { d with
    subtasks := d.subtasks ++
      [{ id := task_id, description := description, agent := agent }],
    dependencies := alistSet d.dependencies task_id dependencies }

/-- `TaskDecomposition.get_ready_tasks` (lines 27-36): the pending subtasks
all of whose declared dependency ids are keys of `completed`. -/
def get_ready_tasks (d : TaskDecomposition) : List Subtask :=
  d.subtasks.filter (fun t =>
    t.status = "pending" ∧
      ((alistGet d.dependencies t.id).getD []).all
        (fun dep => (alistGet d.completed dep).isSome))

/-- `TaskDecomposition.mark_completed` (lines 38-43): records the result in
`completed` unconditionally and flips the **first** subtask with that id to
`"completed"` or `"failed"` according to `result.success`. -/
def mark_completed (d : TaskDecomposition) (task_id : String)
    (result : AgentResult) : TaskDecomposition :=
  { d with
    completed := alistSet d.completed task_id result,
    subtasks :=
      markFirst d.subtasks task_id (if result.success then "completed"
        else "failed") }
where
  markFirst : List Subtask → String → String → List Subtask
    | [], _, _ => []
    | t :: ts, tid, st =>
      if t.id = tid then { t with status := st } :: ts
      else t :: markFirst ts tid st

/-- Trace of the orchestrator's ready-set loop. -/
inductive OrchEvent
  | subtask_dispatch (taskId : String)
  | execution_blocked (completedCount total : Nat)
deriving DecidableEq, Repr

/-- `run_task` inside `OrchestratorAgent._execute_subtasks`
(lines 277-309): a missing agent for the role or any exception raised by
`agent.execute` is converted into a failed `AgentResult` — it never
propagates.  `ao` is the oracle abstracting the dispatched agent's
`execute` (keyed by subtask id). -/
def run_task (agents : List AgentRole)
    (ao : String → Except String AgentResult) (t : Subtask) :
    String × AgentResult :=
  if t.agent ∉ agents then
    (t.id, { success := false, output := "",
             error := some ("No agent available for role: " ++
               t.agent.value) })
  else
    match ao t.id with
    | .ok r => (t.id, r)
    | .error e => (t.id, { success := false, output := "", error := some e })

/-- `OrchestratorAgent._execute_subtasks` (lines 268-323): dispatch every
ready task (concurrently in the source; the join-all collects one result
per task, in order). -/
def execute_subtasks (agents : List AgentRole)
    (ao : String → Except String AgentResult) (ts : List Subtask) :
    List (String × AgentResult) :=
  ts.map (run_task agents ao)

/-- Result of the orchestrator's ready-set loop. -/
structure WaveRun where
  decomp : TaskDecomposition
  context : Ctx
  trace : List OrchEvent
deriving DecidableEq, Repr

/-- The `while step < max_steps` ready-set loop of `OrchestratorAgent.execute`
(lines 143-165): compute the ready set; if empty, exit — reporting
`execution_blocked` when not all subtasks are completed; otherwise dispatch
the ready wave, fold every result into `completed` and into the context
under `result_<id>`, and iterate. -/
def wave_loop (agents : List AgentRole)
    (ao : String → Except String AgentResult) :
    Nat → TaskDecomposition → Ctx → WaveRun
  | 0, d, ctx => ⟨d, ctx, []⟩
  | fuel + 1, d, ctx =>
    let ready := get_ready_tasks d
    if ready.isEmpty then
      if d.completed.length = d.subtasks.length then ⟨d, ctx, []⟩
      else
        ⟨d, ctx, [.execution_blocked d.completed.length d.subtasks.length]⟩
    else
      let results := execute_subtasks agents ao ready
      let dc := results.foldl
        (fun (p : TaskDecomposition × Ctx) r =>
          (mark_completed p.1 r.1 r.2,
           alistSet p.2 ("result_" ++ r.1) (.str r.2.output)))
        (d, ctx)
      let wr := wave_loop agents ao fuel dc.1 dc.2
      ⟨wr.decomp, wr.context,
        (ready.map (fun t => OrchEvent.subtask_dispatch t.id)) ++ wr.trace⟩

/-! ## Scheduler data model (`src/backend/workflows/scheduler.py`)

The APScheduler backend is external; the parts of its contract the source
relies on are modelled explicitly:
* `add_job(..., id=task_id)` without `replace_existing` raises
  `ConflictingIdError` when a job with that id already exists, and adds
  exactly one job otherwise;
* the new job's `next_run_time` is computed from its trigger (abstracted
  as the oracle `nr : Trigger → Option Nat`);
* `DateTrigger(run_date=...)` accepts any datetime, past ones included —
  it performs no registration-time validation against the current time;
* `datetime.fromisoformat` is abstracted as the oracle
  `fromiso : String → Except String Nat` (it raises `ValueError` on a
  malformed string).
The JSON round-trip of `trigger_config` / `variables` through the database
rows is assumed to be the identity, so a row is modelled as the
`ScheduledTask` it deserializes to. -/

/-- A value inside a `trigger_config` dict: a string, an int, or a
datetime. -/
inductive ConfigVal
  | str (s : String)
  | int (n : Int)
  | time (t : Nat)
deriving DecidableEq, Repr

/-- The `trigger_config : Dict[str, Any]` of a `ScheduledTask`. -/
abbrev TriggerConfig := List (String × ConfigVal)

/-- The APScheduler trigger objects built by `_create_trigger`. -/
inductive Trigger
  | cron (minute hour day month day_of_week : ConfigVal)
  | interval (seconds minutes hours days : ConfigVal)
  | date (run_date : Option Nat)
deriving DecidableEq, Repr

/-- `ScheduledTask` (`scheduler.py` lines 21-38). -/
structure ScheduledTask where
  id : String
  workflow_id : String
  name : String
  trigger_type : String
  trigger_config : TriggerConfig
  «variables» : Ctx := []
  enabled : Bool := true
  created_at : Nat := 0
  last_run : Option Nat := none
  next_run : Option Nat := none
  run_count : Nat := 0
deriving DecidableEq, Repr

/-- A live APScheduler job. -/
structure Job where
  id : String
  name : String
  trigger : Trigger
  next_run_time : Option Nat
deriving DecidableEq, Repr

/-- The mutable state of a `WorkflowScheduler`: backend availability
(`SCHEDULER_AVAILABLE`), presence of a `db_session_factory`, the live job
table, the in-memory `scheduled_tasks` dict, and the persisted rows. -/
structure SchedState where
  scheduler_available : Bool := true
  has_db : Bool := true
  jobs : List (String × Job) := []
  scheduled_tasks : List (String × ScheduledTask) := []
  db : List ScheduledTask := []
deriving DecidableEq, Repr

/-- `WorkflowScheduler._create_trigger` (lines 249-277).  The `date` branch
parses a string `run_date` with `fromisoformat` (whose `ValueError`
propagates) and builds a `DateTrigger` without any past-date check; an
unknown `trigger_type` yields `None`.  A non-str, non-datetime `run_date`
would make `DateTrigger` raise `TypeError`. -/
def create_trigger (available : Bool)
    (fromiso : String → Except String Nat)
    (trigger_type : String) (config : TriggerConfig) :
    Except String (Option Trigger) :=
  if ¬ available then .ok none
  else if trigger_type = "cron" then
    .ok (some (.cron ((alistGet config "minute").getD (.str "*"))
      ((alistGet config "hour").getD (.str "*"))
      ((alistGet config "day").getD (.str "*"))
      ((alistGet config "month").getD (.str "*"))
      ((alistGet config "day_of_week").getD (.str "*"))))
  else if trigger_type = "interval" then
    .ok (some (.interval ((alistGet config "seconds").getD (.int 0))
      ((alistGet config "minutes").getD (.int 0))
      ((alistGet config "hours").getD (.int 0))
      ((alistGet config "days").getD (.int 0))))
  else if trigger_type = "date" then
    match alistGet config "run_date" with
    | some (.str s) => (fromiso s).map (fun t => some (.date (some t)))
    | some (.time t) => .ok (some (.date (some t)))
    | some (.int _) => .error "TypeError"
    | none => .ok (some (.date none))
  else .ok none

/-- APScheduler `add_job` with an explicit id and no `replace_existing`:
raises `ConflictingIdError` on a duplicate id, otherwise registers exactly
one job whose `next_run_time` comes from the trigger. -/
def add_job (nr : Trigger → Option Nat) (jobs : List (String × Job))
    (trigger : Trigger) (jobId jobName : String) :
    Except String (List (String × Job) × Job) :=
  if (alistGet jobs jobId).isSome then .error "ConflictingIdError"
  else
    let job : Job := ⟨jobId, jobName, trigger, nr trigger⟩
    .ok (alistSet jobs jobId job, job)

/-- `WorkflowScheduler._persist_task` (lines 125-169): upsert of the row
keyed by the task id; database errors are swallowed. -/
def persist_task (st : SchedState) (task : ScheduledTask) : SchedState :=
  if ¬ st.has_db then st else { st with db := upsert st.db task }
where
  upsert : List ScheduledTask → ScheduledTask → List ScheduledTask
    | [], t => [t]
    | r :: rs, t => if r.id = t.id then t :: rs else r :: upsert rs t

/-- `WorkflowScheduler.schedule` (lines 198-247).  Returns `.ok (st, none)`
when the backend is missing or `_create_trigger` yields `None`; exceptions
raised by `_create_trigger` (malformed date string) or `add_job`
(duplicate id) propagate to the caller as `.error`. -/
def schedule (fromiso : String → Except String Nat)
    (nr : Trigger → Option Nat) (st : SchedState)
    (workflow_id name trigger_type : String) (config : TriggerConfig)
    (vars : Ctx) (task_id : String) (now : Nat) :
    Except String (SchedState × Option ScheduledTask) :=
  if ¬ st.scheduler_available then .ok (st, none)
  else
    let task : ScheduledTask :=
      { id := task_id, workflow_id := workflow_id, name := name,
        trigger_type := trigger_type, trigger_config := config,
        «variables» := vars, created_at := now }
    match create_trigger st.scheduler_available fromiso trigger_type config with
    | .error e => .error e
    | .ok none => .ok (st, none)
    | .ok (some trigger) =>
      match add_job nr st.jobs trigger task_id name with
      | .error e => .error e
      | .ok (jobs, job) =>
        let task := { task with next_run := job.next_run_time }
        let st := { st with
          jobs := jobs,
          scheduled_tasks := alistSet st.scheduled_tasks task_id task }
        let st := persist_task st task
        .ok (st, some task)

/-- The expired-`date`-trigger check of `load_persisted_tasks`
(lines 91-98), including Python truthiness of `run_date` (`""` and `0` are
falsy, so they skip both the conversion and the comparison). -/
def expired_date (fromiso : String → Except String Nat) (now : Nat)
    (trigger_type : String) (config : TriggerConfig) : Except String Bool :=
  if trigger_type = "date" then
    match alistGet config "run_date" with
    | some (.str s) =>
      if s ≠ "" then (fromiso s).map (fun t => t < now) else .ok false
    | some (.time t) => .ok (t < now)
    | some (.int n) => if n ≠ 0 then .error "TypeError" else .ok false
    | none => .ok false
  else .ok false

/-- Processing of one enabled row inside `load_persisted_tasks`
(lines 76-116): rebuild the in-memory task (its `next_run` starts at
`None`), drop it if its `date` trigger already fired, recreate the trigger,
register the job when the backend is available and recompute `next_run`
from it; any exception in the per-row `try` (parse failure, duplicate job
id) is logged and the row is dropped. -/
def load_task (available : Bool) (fromiso : String → Except String Nat)
    (nr : Trigger → Option Nat) (now : Nat)
    (st : SchedState) (row : ScheduledTask) : SchedState :=
  let task : ScheduledTask :=
    { id := row.id, workflow_id := row.workflow_id, name := row.name,
      trigger_type := row.trigger_type, trigger_config := row.trigger_config,
      «variables» := row.«variables», enabled := row.enabled,
      created_at := row.created_at, last_run := row.last_run,
      run_count := row.run_count }
  let attempt : Except String (Option (List (String × Job) × ScheduledTask)) := do
    let ex ← expired_date fromiso now row.trigger_type row.trigger_config
    if ex then
      pure none
    else do
      let trOpt ← create_trigger available fromiso row.trigger_type
        row.trigger_config
      match trOpt with
      | some trigger =>
        if available then do
          let res ← add_job nr st.jobs trigger task.id task.name
          pure (some (res.1, { task with next_run := res.2.next_run_time }))
        else pure (some (st.jobs, task))
      | none => pure (some (st.jobs, task))
  match attempt with
  | .error _ => st
  | .ok none => st
  | .ok (some res) =>
    { st with
      jobs := res.1,
      scheduled_tasks := alistSet st.scheduled_tasks res.2.id res.2 }

/-- `WorkflowScheduler.load_persisted_tasks` (lines 61-123): reads every
`enabled` row and processes each with its own `try/except`. -/
def load_persisted_tasks (fromiso : String → Except String Nat)
    (nr : Trigger → Option Nat) (now : Nat) (st : SchedState) : SchedState :=
  if ¬ st.has_db then st
  else (st.db.filter (·.enabled)).foldl
    (load_task st.scheduler_available fromiso nr now) st

/-! ### Derived reload bookkeeping

The following definitions name, for a well-formed persisted row, the
values `load_persisted_tasks` computes for it; they are used to state the
recovery claims. -/

/-- The parsed `run_date` of a trigger config, when present, truthy and
parseable. -/
def rowRunDate (fromiso : String → Except String Nat)
    (config : TriggerConfig) : Option Nat :=
  match alistGet config "run_date" with
  | some (.str s) => if s ≠ "" then (fromiso s).toOption else none
  | some (.time t) => some t
  | _ => none

/-- Whether `load_persisted_tasks` skips the row as an expired `date`
trigger (lines 91-98). -/
def rowExpired (fromiso : String → Except String Nat) (now : Nat)
    (row : ScheduledTask) : Bool :=
  row.trigger_type == "date" &&
    match rowRunDate fromiso row.trigger_config with
    | some t => decide (t < now)
    | none => false

/-- A well-formed persisted row, as `schedule()` writes them: the trigger
type is one of the three known ones, and a `date` row's `run_date` is
absent, a datetime, or a non-empty parseable string. -/
def validRow (fromiso : String → Except String Nat)
    (row : ScheduledTask) : Bool :=
  (row.trigger_type == "cron" || row.trigger_type == "interval" ||
    row.trigger_type == "date") &&
  (row.trigger_type != "date" ||
    match alistGet row.trigger_config "run_date" with
    | some (.str s) => s != "" && (fromiso s).toOption.isSome
    | some (.int _) => false
    | _ => true)

/-- The trigger `_create_trigger` builds for a well-formed row. -/
def rowTrigger (fromiso : String → Except String Nat)
    (row : ScheduledTask) : Trigger :=
  if row.trigger_type = "cron" then
    .cron ((alistGet row.trigger_config "minute").getD (.str "*"))
      ((alistGet row.trigger_config "hour").getD (.str "*"))
      ((alistGet row.trigger_config "day").getD (.str "*"))
      ((alistGet row.trigger_config "month").getD (.str "*"))
      ((alistGet row.trigger_config "day_of_week").getD (.str "*"))
  else if row.trigger_type = "interval" then
    .interval ((alistGet row.trigger_config "seconds").getD (.int 0))
      ((alistGet row.trigger_config "minutes").getD (.int 0))
      ((alistGet row.trigger_config "hours").getD (.int 0))
      ((alistGet row.trigger_config "days").getD (.int 0))
  else .date (rowRunDate fromiso row.trigger_config)

/-- The in-memory task a successful reload of a row registers: the row's
fields with `next_run` recomputed from the new live job. -/
def reloadTask (fromiso : String → Except String Nat)
    (nr : Trigger → Option Nat) (row : ScheduledTask) : ScheduledTask :=
  { id := row.id, workflow_id := row.workflow_id, name := row.name,
    trigger_type := row.trigger_type, trigger_config := row.trigger_config,
    «variables» := row.«variables», enabled := row.enabled,
    created_at := row.created_at, last_run := row.last_run,
    run_count := row.run_count,
    next_run := nr (rowTrigger fromiso row) }

/-- The live job a successful reload of a row registers. -/
def reloadJob (fromiso : String → Except String Nat)
    (nr : Trigger → Option Nat) (row : ScheduledTask) : Job :=
  ⟨row.id, row.name, rowTrigger fromiso row, nr (rowTrigger fromiso row)⟩

/-! ## Concrete fixtures, used by counterexamples and witnesses -/

/-- A step-execution oracle that fails every attempt. -/
def seFail : String → Nat → Except String Dict := fun _ _ => .error "boom"

/-- A step-execution oracle that succeeds on every attempt. -/
def seOk : String → Nat → Except String Dict := fun _ _ => .ok [("x", "1")]

/-- A step-execution oracle that fails the initial attempt and succeeds on
every retry. -/
def seRetryOk : String → Nat → Except String Dict :=
  fun _ k => if k = 0 then .error "boom" else .ok [("k", "v")]

/-- A condition oracle that always evaluates to `True`. -/
def ecTrue : String → Ctx → Except String Bool := fun _ _ => .ok true

/-- A condition oracle that always evaluates to `False`. -/
def ecFalse : String → Ctx → Except String Bool := fun _ _ => .ok false

/-- A step guarded by a condition expression. -/
def condStep : WorkflowStep :=
  { id := "c1", name := "guard", condition := some "x > 10" }

/-- No externally delivered cancellation. -/
def noCancel : Nat → Bool := fun _ => false

/-- A step whose `on_error` policy is `retry` (with the default
`max_retries = 3`). -/
def retryStep : WorkflowStep := { id := "s1", name := "one", on_error := "retry" }

/-- A one-step workflow around `retryStep`. -/
def retryWf : Workflow := { id := "w", name := "wf", steps := [retryStep] }

/-- A plain tool step. -/
def stepA : WorkflowStep := { id := "a", name := "A" }

/-- A second plain tool step. -/
def stepB : WorkflowStep := { id := "b", name := "B" }

/-- A two-step workflow. -/
def wfAB : Workflow := { id := "w2", name := "wf2", steps := [stepA, stepB] }

/-- A one-step workflow. -/
def wfA : Workflow := { id := "w1", name := "wf1", steps := [stepA] }

/-- A `fromisoformat` oracle that parses one fixed timestamp and raises
`ValueError` on everything else. -/
def isoFix : String → Except String Nat :=
  fun s => if s = "2020-01-01T00:00:00" then .ok 1577836800
    else .error "ValueError"

/-- A `next_run_time` oracle: a date trigger fires at its `run_date`;
recurring triggers at tick 7. -/
def nrFix : Trigger → Option Nat :=
  fun tr => match tr with
    | .date d => d
    | _ => some 7

/-- An enabled persisted cron row. -/
def rowCron : ScheduledTask :=
  { id := "r1", workflow_id := "wfA", name := "hourly",
    trigger_type := "cron", trigger_config := [("minute", .str "0")] }

/-- An enabled persisted one-shot row whose `run_date` has already
passed (relative to `now = 2000000000`). -/
def rowPast : ScheduledTask :=
  { id := "r2", workflow_id := "wfB", name := "once",
    trigger_type := "date",
    trigger_config := [("run_date", .str "2020-01-01T00:00:00")] }

/-- An agent oracle whose results fail for subtask `t_b` and succeed
otherwise. -/
def aoMixed : String → Except String AgentResult :=
  fun tid => if tid = "t_b" then .ok { success := false, error := some "bad" }
    else .ok { success := true, output := "out" }

/-- A cyclic decomposition: `t_a` depends on `t_b` and `t_b` on `t_a`. -/
def cyclicDecomp : TaskDecomposition :=
  add_subtask (add_subtask { original_task := "loop" }
    "t_a" "first" .researcher ["t_b"]) "t_b" "second" .coder ["t_a"]

/-- Three subtasks where `t_c` depends on `t_a` and `t_b`. -/
def gatedBase : TaskDecomposition :=
  add_subtask (add_subtask (add_subtask { original_task := "gated" }
    "t_a" "first" .researcher []) "t_b" "second" .coder [])
    "t_c" "third" .analyst ["t_a", "t_b"]

/-- `gatedBase` after both dependencies completed — `t_b` with a failed
result. -/
def gatedDecomp : TaskDecomposition :=
  mark_completed
    (mark_completed gatedBase "t_a" { success := true, output := "ok" })
    "t_b" { success := false, error := some "bad" }

/-! ## General lemmas about the engine loop -/

/-- The step loop on `pre ++ post` runs `pre` first; if an exception
propagates out of `pre` the `post` steps are returned untouched, otherwise
`post` continues from the state `pre` left behind. -/
theorem run_steps_append (se : String → Nat → Except String Dict)
    (ec : String → Ctx → Except String Bool) (cd : Nat → Bool)
    (pre post : List WorkflowStep) (i : Nat) (exec : WorkflowExecution)
    (tick : Nat) :
    run_steps se ec cd (pre ++ post) i exec tick =
      (let lr := run_steps se ec cd pre i exec tick
       match lr.err with
       | none =>
         let lr2 := run_steps se ec cd post (i + pre.length) lr.exec lr.tick
         ⟨lr.steps ++ lr2.steps, lr2.exec, lr2.tick, lr.trace ++ lr2.trace,
           lr2.err⟩
       | some msg => ⟨lr.steps ++ post, lr.exec, lr.tick, lr.trace,
           some msg⟩) := by
  induction pre generalizing i exec tick with
  | nil => simp [run_steps]
  | cons s pre ih =>
    simp only [List.cons_append, run_steps]
    set sr := process_step se ec s { exec with current_step := i } tick with hsr
    set e' := if cd i then (cancel sr.exec sr.tick).1 else sr.exec with he'
    cases hf : sr.flow with
    | raised msg => simp [hf]
    | next =>
      simp only [hf, List.append_eq]
      rw [ih]
      cases he : (run_steps se ec cd pre (i + 1) e' sr.tick).err with
      | none =>
        simp only [he, List.length_cons,
          show i + (pre.length + 1) = i + 1 + pre.length from by omega]
        simp [List.append_assoc]
      | some msg => simp [he]

/-! ## C1: retry policy with exhausted retries -/

/-- C1 counterexample.  A step with `on_error = "retry"`, `max_retries = 3`
whose tool fails on the initial attempt and on all three retries: the
execution is `"failed"` as the claim says, but the step's final status is
`running` — the retry-exhausted path (lines 180-190) re-raises without ever
setting `StepStatus.FAILED`, so the claimed `status == "failed"` is false. -/
theorem C1_counterexample :
    ((execute seFail ecTrue noCancel retryWf [] "e1" 0).steps.map (·.status)
        = [.running]) ∧
    (execute seFail ecTrue noCancel retryWf [] "e1" 0).exec.status =
      "failed" ∧
    ¬ ((execute seFail ecTrue noCancel retryWf [] "e1" 0).steps.map (·.status)
        = [.failed]) := by decide

/-- C1 (amended): for every step with `on_error = "retry"`,
`max_retries = 3` and no condition guard whose underlying call fails on
the initial attempt and on every retry, the engine makes exactly 4 total
attempts (1 initial + 3 retries) with exponential backoff of
`2^attempt` seconds before the retries (sleeps of 1, 2, 4), the step ends
with status `"running"` — not `"failed"`; only its `error` field records
the initial failure — and the execution of a workflow built from that step
has overall status `"failed"` carrying the last retry's error message. -/
theorem C1_retry_exhausted
    (se : String → Nat → Except String Dict)
    (ec : String → Ctx → Except String Bool) (cd : Nat → Bool)
    (step : WorkflowStep) (msg : Nat → String)
    (hoe : step.on_error = "retry") (hmr : step.max_retries = 3)
    (hcond : strOptTruthy step.condition = false)
    (hfail : ∀ k, k ≤ 3 → se step.id k = .error (msg k)) :
    (∀ exec tick, process_step se ec step exec tick =
      ⟨{ step with
          status := .running, started_at := some tick,
          error := some (msg 0) },
        exec, tick + 1,
        [.step_started step.id step.name, .attempt step.id 0,
         .sleep 1, .attempt step.id 1, .sleep 2, .attempt step.id 2,
         .sleep 4, .attempt step.id 3], .raised (msg 3)⟩) ∧
    (∀ wfid wfname ictx execId t0,
      (execute se ec cd { id := wfid, name := wfname, steps := [step] }
          ictx execId t0).exec.status = "failed" ∧
      (execute se ec cd { id := wfid, name := wfname, steps := [step] }
          ictx execId t0).exec.error = some (msg 3)) := by
  have h0 := hfail 0 (by omega)
  have h1 := hfail 1 (by omega)
  have h2 := hfail 2 (by omega)
  have h3 := hfail 3 (by omega)
  have hps : ∀ exec tick, process_step se ec step exec tick =
      ⟨{ step with
          status := .running, started_at := some tick,
          error := some (msg 0) },
        exec, tick + 1,
        [.step_started step.id step.name, .attempt step.id 0,
         .sleep 1, .attempt step.id 1, .sleep 2, .attempt step.id 2,
         .sleep 4, .attempt step.id 3], .raised (msg 3)⟩ := by
    intro exec tick
    simp [process_step, hcond, h0, hoe, hmr, retryFrom, h1, h2, h3]
  refine ⟨hps, ?_⟩
  intro wfid wfname ictx execId t0
  simp only [execute, run_steps, hps]
  cases hcd : cd 0 <;> simp [cancel, hcd]

/-- C1 witness: the amended theorem applied to a concrete always-failing
oracle. -/
theorem C1_retry_exhausted_witness :
    (execute seFail ecTrue noCancel
        { id := "w", name := "wf", steps := [retryStep] } [] "e1" 0).exec.status
      = "failed" ∧
    (execute seFail ecTrue noCancel
        { id := "w", name := "wf", steps := [retryStep] } [] "e1" 0).exec.error
      = some "boom" :=
  (C1_retry_exhausted seFail ecTrue noCancel retryStep (fun _ => "boom")
    rfl rfl rfl (fun _ _ => rfl)).2 "w" "wf" [] "e1" 0

/-! ## C2: cancellation -/

/-- `process_step` never reads `execution.status` or
`execution.completed_at` — the only two fields `cancel` writes:
overriding them before processing a step commutes with the processing. -/
theorem process_step_status_congr (se : String → Nat → Except String Dict)
    (ec : String → Ctx → Except String Bool) (s : WorkflowStep)
    (e : WorkflowExecution) (t : Nat) (x : String) (y : Option Nat) :
    process_step se ec s { e with status := x, completed_at := y } t =
      ⟨(process_step se ec s e t).step,
       { (process_step se ec s e t).exec with
         status := x, completed_at := y },
       (process_step se ec s e t).tick, (process_step se ec s e t).trace,
       (process_step se ec s e t).flow⟩ := by
  simp only [process_step]
  split
  · rfl
  · cases h : se s.id 0 with
    | ok r =>
      by_cases hr : r = [] <;> simp [h, hr]
    | error e1 =>
      by_cases hs : s.on_error = "skip"
      · simp [h, hs]
      · by_cases hrt : s.on_error = "retry" ∧ 0 < s.max_retries
        · cases h2 : (retryFrom (se s.id) s.id s.max_retries
              s.max_retries 0 []).2 with
          | ok r => simp [h, hs, hrt, h2]
          | error re => simp [h, hs, hrt, h2]
        · simp [h, hs, hrt]

/-- The cancellation injection point maps status/completed_at overrides to
status/completed_at overrides, whatever the two schedules decide. -/
theorem cancel_inject_congr (b b' : Bool) (e : WorkflowExecution) (t : Nat)
    (x : String) (y : Option Nat) :
    ∃ x' y',
      (if b' then (cancel { e with status := x, completed_at := y } t).1
       else { e with status := x, completed_at := y })
      = { (if b then (cancel e t).1 else e) with
          status := x', completed_at := y' } := by
  refine ⟨if b' ∧ x = "running" then "cancelled" else x,
    if b' ∧ x = "running" then some t else y, ?_⟩
  by_cases hb : b <;> by_cases hb' : b' <;>
    by_cases hx : x = "running" <;>
    by_cases he : e.status = "running" <;>
    simp [cancel, hb, hb', hx, he]

/-- The engine loop ignores cancellation: under any two cancellation
schedules `cd` and `cd'`, `run_steps` produces the same processed steps,
tick, trace and propagated error, the executions differing at most in the
`status` / `completed_at` fields that `cancel` writes. -/
theorem run_steps_cd_congr (se : String → Nat → Except String Dict)
    (ec : String → Ctx → Except String Bool) (cd cd' : Nat → Bool)
    (steps : List WorkflowStep) :
    ∀ (i : Nat) (e : WorkflowExecution) (t : Nat) (x : String)
      (y : Option Nat),
    ∃ x' y',
      run_steps se ec cd' steps i { e with status := x, completed_at := y } t =
        ⟨(run_steps se ec cd steps i e t).steps,
         { (run_steps se ec cd steps i e t).exec with
           status := x', completed_at := y' },
         (run_steps se ec cd steps i e t).tick,
         (run_steps se ec cd steps i e t).trace,
         (run_steps se ec cd steps i e t).err⟩ := by
  induction steps with
  | nil => intro i e t x y; exact ⟨x, y, rfl⟩
  | cons s rest ih =>
    intro i e t x y
    simp only [run_steps]
    have hcomm : ({ e with
        status := x, completed_at := y, current_step := i } :
          WorkflowExecution) =
        { ({ e with current_step := i } : WorkflowExecution) with
          status := x, completed_at := y } := rfl
    rw [hcomm, process_step_status_congr]
    set sr := process_step se ec s { e with current_step := i } t with hsr
    obtain ⟨x1, y1, hA⟩ := cancel_inject_congr (cd i) (cd' i) sr.exec sr.tick x y
    cases hf : sr.flow with
    | raised msg =>
      refine ⟨x1, y1, ?_⟩
      simp only [hf, hA]
    | next =>
      obtain ⟨x2, y2, hB⟩ := ih (i + 1)
        (if cd i then (cancel sr.exec sr.tick).1 else sr.exec) sr.tick x1 y1
      refine ⟨x2, y2, ?_⟩
      simp only [hf, hA, hB]

/-- C2 counterexample.  With cancellation delivered while the engine is on
the first of two steps: right after that step the execution is observably
`"cancelled"`, yet the loop still dispatches the second step
(`attempt "b" 0` is in the trace) and the final status is `"completed"` —
the claimed "does not proceed to any subsequent step" and "terminates with
final status cancelled, never overwritten by completed" are both false. -/
theorem C2_counterexample :
    (run_steps seOk ecTrue (fun i => i == 0) [stepA] 0
        { id := "e2", workflow_id := "w2" } 1).exec.status = "cancelled" ∧
    (EngineEvent.attempt "b" 0) ∈
      (execute seOk ecTrue (fun i => i == 0) wfAB [] "e2" 0).trace ∧
    (execute seOk ecTrue (fun i => i == 0) wfAB [] "e2" 0).exec.status =
      "completed" := by decide

/-- C2 (amended): `cancel` does mark a running execution `cancelled` and
stamps `completed_at`, but the execute loop never checks that flag: the
result of `execute` is identical under every cancellation schedule (in
particular all subsequent steps still run), and whenever the loop finishes
without an unrecovered step failure the returned status is `"completed"`,
overwriting any mid-run cancellation. -/
theorem C2_cancellation_ignored :
    (∀ (e : WorkflowExecution) (t : Nat), e.status = "running" →
      cancel e t =
        ({ e with status := "cancelled", completed_at := some t }, true)) ∧
    (∀ se ec cd cd' (wf : Workflow) ictx execId t,
      execute se ec cd wf ictx execId t =
        execute se ec cd' wf ictx execId t) ∧
    (∀ se ec cd (wf : Workflow) ictx execId t,
      (run_steps se ec cd wf.steps 0 (init_exec wf ictx execId t)
        (t + 1)).err = none →
      (execute se ec cd wf ictx execId t).exec.status = "completed") := by
  refine ⟨?_, ?_, ?_⟩
  · intro e t h
    simp [cancel, h]
  · intro se ec cd cd' wf ictx execId t
    obtain ⟨x', y', h⟩ := run_steps_cd_congr se ec cd cd' wf.steps 0
      (init_exec wf ictx execId t) (t + 1) "running" none
    rw [show ({ init_exec wf ictx execId t with
        status := "running", completed_at := none } : WorkflowExecution) =
      init_exec wf ictx execId t from rfl] at h
    simp only [execute]
    rw [h]
  · intro se ec cd wf ictx execId t h
    simp only [execute]
    rw [h]

/-- C2 witness: the amended theorem applied to concrete runs — a concrete
cancel call, a two-step workflow under a cancel-at-step-0 schedule versus
no cancellation, and its `"completed"` final status. -/
theorem C2_cancellation_ignored_witness :
    cancel { id := "e", workflow_id := "w" } 3 =
      ({ id := "e", workflow_id := "w", status := "cancelled",
         completed_at := some 3 }, true) ∧
    execute seOk ecTrue (fun i => i == 0) wfAB [] "e2" 0 =
      execute seOk ecTrue noCancel wfAB [] "e2" 0 ∧
    (execute seOk ecTrue (fun i => i == 0) wfAB [] "e2" 0).exec.status =
      "completed" :=
  ⟨C2_cancellation_ignored.1 { id := "e", workflow_id := "w" } 3 rfl,
   C2_cancellation_ignored.2.1 seOk ecTrue (fun i => i == 0) noCancel
     wfAB [] "e2" 0,
   C2_cancellation_ignored.2.2 seOk ecTrue (fun i => i == 0) wfAB [] "e2" 0
     (by decide)⟩

/-! ## C3: propagation policy of unrecovered step failures -/

/-- C3: `execute` returns a `WorkflowExecution` for every input — the loop
runs inside `try/except` (lines 131-213), so in the embedding `execute` is
a total function and no exception crosses the public API.  When the
processing of a step raises unrecovered (policy `fail`, or retries
exhausted), the returned execution has status `"failed"` with the
triggering error message attached, and the steps after the failing one are
returned exactly as they were passed in — never started. -/
theorem C3_unrecovered_failure (se : String → Nat → Except String Dict)
    (ec : String → Ctx → Except String Bool) (cd : Nat → Bool)
    (wf : Workflow) (ictx : Ctx) (execId : String) (t : Nat)
    (pre post : List WorkflowStep) (step : WorkflowStep) (msg : String)
    (hsteps : wf.steps = pre ++ step :: post)
    (hpre : (run_steps se ec cd pre 0 (init_exec wf ictx execId t)
      (t + 1)).err = none)
    (hraise : (process_step se ec step
      { (run_steps se ec cd pre 0 (init_exec wf ictx execId t)
          (t + 1)).exec with current_step := pre.length }
      (run_steps se ec cd pre 0 (init_exec wf ictx execId t)
        (t + 1)).tick).flow = .raised msg) :
    (execute se ec cd wf ictx execId t).exec.status = "failed" ∧
    (execute se ec cd wf ictx execId t).exec.error = some msg ∧
    (execute se ec cd wf ictx execId t).steps =
      (run_steps se ec cd pre 0 (init_exec wf ictx execId t) (t + 1)).steps ++
        (process_step se ec step
          { (run_steps se ec cd pre 0 (init_exec wf ictx execId t)
              (t + 1)).exec with current_step := pre.length }
          (run_steps se ec cd pre 0 (init_exec wf ictx execId t)
            (t + 1)).tick).step :: post := by
  have hz : (0 : Nat) + pre.length = pre.length := Nat.zero_add _
  simp only [execute, hsteps, run_steps_append, hpre, hz, run_steps,
    hraise]
  simp

/-- C3 witness: a two-step workflow whose second step's tool raises with
the default `fail` policy — the execution is failed with that error and
the (empty) tail of later steps is untouched. -/
theorem C3_unrecovered_failure_witness :
    (execute (fun sid k => if sid = "a" then seOk sid k else seFail sid k)
        ecTrue noCancel wfAB [] "e3" 0).exec.status = "failed" ∧
    (execute (fun sid k => if sid = "a" then seOk sid k else seFail sid k)
        ecTrue noCancel wfAB [] "e3" 0).exec.error = some "boom" ∧
    (execute (fun sid k => if sid = "a" then seOk sid k else seFail sid k)
        ecTrue noCancel wfAB [] "e3" 0).steps =
      (run_steps (fun sid k => if sid = "a" then seOk sid k else seFail sid k)
          ecTrue noCancel [stepA] 0 (init_exec wfAB [] "e3" 0) 1).steps ++
        (process_step
          (fun sid k => if sid = "a" then seOk sid k else seFail sid k)
          ecTrue stepB
          { (run_steps
              (fun sid k => if sid = "a" then seOk sid k else seFail sid k)
              ecTrue noCancel [stepA] 0 (init_exec wfAB [] "e3" 0) 1).exec
            with current_step := 1 }
          (run_steps
            (fun sid k => if sid = "a" then seOk sid k else seFail sid k)
            ecTrue noCancel [stepA] 0 (init_exec wfAB [] "e3" 0) 1).tick).step
        :: [] :=
  C3_unrecovered_failure
    (fun sid k => if sid = "a" then seOk sid k else seFail sid k)
    ecTrue noCancel wfAB [] "e3" 0 [stepA] [] stepB "boom"
    rfl (by decide) (by decide)

/-! ## C4: storage of completed step results -/

/-- C4 counterexample: a step that fails once and succeeds on its first
retry ends with status COMPLETED and its result in `step.result`, yet
`execution.step_results` and `execution.context` stay empty — the retry
success path (lines 183-186) stores nothing, so the claim's "including a
step that succeeds on a retry attempt" is false. -/
theorem C4_counterexample :
    ((execute seRetryOk ecTrue noCancel retryWf [] "e1" 0).steps.map
      (fun s => (s.status, s.result))
        = [(.completed, some [("k", "v")])]) ∧
    (execute seRetryOk ecTrue noCancel retryWf [] "e1" 0).exec.step_results
      = [] ∧
    (execute seRetryOk ecTrue noCancel retryWf [] "e1" 0).exec.context
      = [] := by decide

/-- C4 (amended): a step that completes on the *initial* attempt has its
result stored into `execution.step_results[step.id]`, and into
`context["{step.id}_output"]` when the result dict is truthy (non-empty);
a step that completes on a *retry* attempt records the result only in
`step.result` — `execution.step_results` and the context are left
unchanged, so downstream steps cannot reference it. -/
theorem C4_result_storage
    (se : String → Nat → Except String Dict)
    (ec : String → Ctx → Except String Bool)
    (step : WorkflowStep) (exec : WorkflowExecution) (tick : Nat)
    (hcond : strOptTruthy step.condition = false) :
    (∀ r, se step.id 0 = .ok r →
      process_step se ec step exec tick =
        ⟨{ step with
            status := .completed, result := some r,
            started_at := some tick, completed_at := some (tick + 1) },
          { exec with
            step_results := alistSet exec.step_results step.id r,
            context := if r ≠ [] then
                alistSet exec.context (step.id ++ "_output") (.dict r)
              else exec.context },
          tick + 2,
          [.step_started step.id step.name, .attempt step.id 0,
           .step_completed step.id], .next⟩) ∧
    (∀ e1 r, step.on_error = "retry" → 0 < step.max_retries →
      se step.id 0 = .error e1 → se step.id 1 = .ok r →
      process_step se ec step exec tick =
        ⟨{ step with
            status := .completed, result := some r, error := some e1,
            started_at := some tick, completed_at := some (tick + 1) },
          exec, tick + 2,
          [.step_started step.id step.name, .attempt step.id 0,
           .sleep 1, .attempt step.id 1], .next⟩) := by
  constructor
  · intro r h
    by_cases hr : r = [] <;> simp [process_step, hcond, h, hr]
  · intro e1 r hoe hmr h0 h1
    obtain ⟨m, hm⟩ : ∃ m, step.max_retries = m + 1 :=
      ⟨step.max_retries - 1, by omega⟩
    simp [process_step, hcond, h0, hoe, hm, retryFrom, h1]

/-- C4 witness: the amended theorem applied to a step succeeding
immediately and to a step succeeding on its first retry. -/
theorem C4_result_storage_witness :
    (process_step seOk ecTrue stepA { id := "e", workflow_id := "w" } 0 =
      ⟨{ stepA with
          status := .completed, result := some [("x", "1")],
          started_at := some 0, completed_at := some 1 },
        { id := "e", workflow_id := "w",
          step_results := [("a", [("x", "1")])],
          context := [("a_output", .dict [("x", "1")])] },
        2,
        [.step_started "a" "A", .attempt "a" 0, .step_completed "a"],
        .next⟩) ∧
    (process_step seRetryOk ecTrue retryStep
        { id := "e", workflow_id := "w" } 0 =
      ⟨{ retryStep with
          status := .completed, result := some [("k", "v")],
          error := some "boom", started_at := some 0,
          completed_at := some 1 },
        { id := "e", workflow_id := "w" }, 2,
        [.step_started "s1" "one", .attempt "s1" 0,
         .sleep 1, .attempt "s1" 1], .next⟩) :=
  ⟨by
    have h := (C4_result_storage seOk ecTrue stepA
      { id := "e", workflow_id := "w" } 0 rfl).1 [("x", "1")] rfl
    simpa using h,
   (C4_result_storage seRetryOk ecTrue retryStep
      { id := "e", workflow_id := "w" } 0 rfl).2 "boom" [("k", "v")]
      rfl (by decide) rfl rfl⟩

/-! ## C5: the Workflow is not a read-only snapshot -/

/-- C5 counterexample: executing a one-step workflow returns a step list
different from the one passed in — the pending step comes back COMPLETED
(with `result`, `started_at`, `completed_at` filled in), because the engine
mutates the `WorkflowStep` records of the `Workflow` argument in place. -/
theorem C5_counterexample :
    (execute seOk ecTrue noCancel wfA [] "e5" 0).steps ≠ wfA.steps ∧
    (wfA.steps.map (·.status) = [.pending]) ∧
    ((execute seOk ecTrue noCancel wfA [] "e5" 0).steps.map (·.status) =
      [.completed]) := by decide

/-- C5 (amended): the engine operates on the passed Workflow's own step
records and mutates their runtime fields — every dispatched step (one whose
condition guard does not block it) comes back with `started_at` stamped to
the dispatch tick and a status that is no longer PENDING; consequently a
single-step workflow with a pending step is never returned with its step
list unchanged.  (The `Workflow`'s non-step metadata is untouched by the
loop.) -/
theorem C5_steps_mutated
    (se : String → Nat → Except String Dict) (step : WorkflowStep)
    (hcond : strOptTruthy step.condition = false) :
    (∀ (ec : String → Ctx → Except String Bool)
       (exec : WorkflowExecution) (tick : Nat),
      (process_step se ec step exec tick).step.started_at = some tick ∧
      (process_step se ec step exec tick).step.status ≠ .pending) ∧
    (∀ (ec : String → Ctx → Except String Bool) (cd : Nat → Bool)
       (ictx : Ctx) (execId wfid wfname : String) (t : Nat),
      step.status = .pending →
      (execute se ec cd { id := wfid, name := wfname, steps := [step] }
        ictx execId t).steps ≠ [step]) := by
  have hmut : ∀ (ec : String → Ctx → Except String Bool)
      (exec : WorkflowExecution) (tick : Nat),
      (process_step se ec step exec tick).step.started_at = some tick ∧
      (process_step se ec step exec tick).step.status ≠ .pending := by
    intro ec exec tick
    simp only [process_step]
    rw [if_neg (by simp [hcond])]
    cases h : se step.id 0 with
    | ok r => by_cases hr : r = [] <;> simp [h, hr]
    | error e1 =>
      by_cases hs : step.on_error = "skip"
      · simp [h, hs]
      · by_cases hrt : step.on_error = "retry" ∧ 0 < step.max_retries
        · cases h2 : (retryFrom (se step.id) step.id step.max_retries
              step.max_retries 0 []).2 with
          | ok r => simp [h, hs, hrt, h2]
          | error re => simp [h, hs, hrt, h2]
        · simp [h, hs, hrt]
  refine ⟨hmut, ?_⟩
  intro ec cd ictx execId wfid wfname t hp heq
  have hexs : (execute se ec cd { id := wfid, name := wfname, steps := [step] }
      ictx execId t).steps =
      [(process_step se ec step
        { init_exec { id := wfid, name := wfname, steps := [step] }
            ictx execId t with current_step := 0 } (t + 1)).step] := by
    simp only [execute, run_steps]
    cases hf : (process_step se ec step
        { init_exec { id := wfid, name := wfname, steps := [step] }
            ictx execId t with current_step := 0 } (t + 1)).flow <;>
      simp [hf]
  rw [hexs] at heq
  have := (hmut ec
    { init_exec { id := wfid, name := wfname, steps := [step] }
        ictx execId t with current_step := 0 } (t + 1)).2
  rw [List.cons.injEq] at heq
  rw [heq.1] at this
  exact this hp

/-- C5 witness: the amended theorem applied to a concrete succeeding
one-step workflow. -/
theorem C5_steps_mutated_witness :
    (process_step seOk ecTrue stepA
      { id := "e", workflow_id := "w" } 0).step.started_at = some 0 ∧
    (process_step seOk ecTrue stepA
      { id := "e", workflow_id := "w" } 0).step.status ≠ .pending ∧
    (execute seOk ecTrue noCancel
      { id := "w1", name := "wf1", steps := [stepA] } [] "e5" 0).steps ≠
      [stepA] :=
  ⟨((C5_steps_mutated seOk stepA rfl).1 ecTrue
      { id := "e", workflow_id := "w" } 0).1,
   ((C5_steps_mutated seOk stepA rfl).1 ecTrue
      { id := "e", workflow_id := "w" } 0).2,
   (C5_steps_mutated seOk stepA rfl).2 ecTrue noCancel [] "e5" "w1" "wf1"
      0 rfl⟩

/-! ## C8: condition guard skips -/

/-- C8: when a step's condition evaluates to false against the current
context — including when the evaluation fails, since `_evaluate_condition`
absorbs every exception into `False` (lines 403-416) — the step is marked
SKIPPED with every other field untouched (in particular no error is
recorded and nothing is attempted), only a `step_skipped` event is
emitted, and the loop continues with the next step. -/
theorem C8_condition_skip
    (se : String → Nat → Except String Dict)
    (ec : String → Ctx → Except String Bool)
    (step : WorkflowStep) (c : String) (exec : WorkflowExecution)
    (hc : step.condition = some c) (hne : c ≠ "")
    (hfalse : ec c exec.context = .ok false ∨
      ∃ e, ec c exec.context = .error e) :
    (∀ (exec' : WorkflowExecution) (tick : Nat),
      exec'.context = exec.context →
      process_step se ec step exec' tick =
        ⟨{ step with status := .skipped }, exec', tick,
          [.step_skipped step.id "condition_not_met"], .next⟩) ∧
    (∀ (cd : Nat → Bool) (rest : List WorkflowStep) (i tick : Nat),
      run_steps se ec cd (step :: rest) i exec tick =
        (let e1 : WorkflowExecution := { exec with current_step := i }
         let e2 := if cd i then (cancel e1 tick).1 else e1
         let lr := run_steps se ec cd rest (i + 1) e2 tick
         ⟨{ step with status := .skipped } :: lr.steps, lr.exec, lr.tick,
          .step_skipped step.id "condition_not_met" :: lr.trace,
          lr.err⟩)) := by
  have heval : evaluate_condition ec c exec.context = false := by
    rcases hfalse with h | ⟨e, h⟩ <;> simp [evaluate_condition, h]
  have hps : ∀ (exec' : WorkflowExecution) (tick : Nat),
      exec'.context = exec.context →
      process_step se ec step exec' tick =
        ⟨{ step with status := .skipped }, exec', tick,
          [.step_skipped step.id "condition_not_met"], .next⟩ := by
    intro exec' tick hctx
    simp only [process_step]
    rw [if_pos]
    constructor
    · simp [hc, strOptTruthy, hne]
    · simp [hc, hctx, heval]
  refine ⟨hps, ?_⟩
  intro cd rest i tick
  simp only [run_steps]
  rw [hps { exec with current_step := i } tick rfl]
  simp

/-- C8 witness: a concrete guarded step under a false condition is skipped
without an error and without an attempt. -/
theorem C8_condition_skip_witness :
    process_step seOk ecFalse condStep { id := "e", workflow_id := "w" } 4 =
      ⟨{ condStep with status := .skipped },
        { id := "e", workflow_id := "w" }, 4,
        [.step_skipped "c1" "condition_not_met"], .next⟩ :=
  (C8_condition_skip seOk ecFalse condStep "x > 10"
      { id := "e", workflow_id := "w" } rfl (by decide) (Or.inl rfl)).1
    { id := "e", workflow_id := "w" } 4 rfl

/-! ## Association-list lemmas -/

/-- Setting a key makes it readable. -/
theorem alistGet_alistSet_self {α : Type} (l : List (String × α))
    (k : String) (v : α) : alistGet (alistSet l k v) k = some v := by
  induction l with
  | nil => simp [alistGet, alistSet]
  | cons p rest ih =>
    by_cases h : p.1 = k <;> simp [alistSet, alistGet, h, ih]

/-- Setting one key leaves the others unchanged. -/
theorem alistGet_alistSet_ne {α : Type} (l : List (String × α))
    (k k' : String) (v : α) (h : k ≠ k') :
    alistGet (alistSet l k v) k' = alistGet l k' := by
  induction l with
  | nil => simp [alistGet, alistSet, h]
  | cons p rest ih =>
    by_cases hp : p.1 = k <;> simp [alistSet, alistGet, hp, h, ih]

/-- Setting an absent key appends the binding. -/
theorem alistSet_fresh {α : Type} (l : List (String × α)) (k : String)
    (v : α) (h : alistGet l k = none) : alistSet l k v = l ++ [(k, v)] := by
  induction l with
  | nil => simp [alistSet]
  | cons p rest ih =>
    by_cases hp : p.1 = k
    · simp [alistGet, hp] at h
    · simp only [alistGet, hp, if_neg] at h
      simp [alistSet, hp, ih h]

/-- `_persist_task` only writes the database rows. -/
theorem persist_task_jobs (st : SchedState) (task : ScheduledTask) :
    (persist_task st task).jobs = st.jobs ∧
    (persist_task st task).scheduled_tasks = st.scheduled_tasks ∧
    (persist_task st task).scheduler_available = st.scheduler_available ∧
    (persist_task st task).has_db = st.has_db := by
  by_cases h : st.has_db <;> simp [persist_task, h]

/-! ## C9: ready-set gating and deadlock termination -/

/-- C9: (1) a subtask is in the ready set — the only tasks the orchestrator
loop dispatches — only if it is pending and every declared dependency id is
already a key of `completed`, so a subtask is never dispatched before all
its dependencies have completed; (2) when the ready set is empty while some
subtasks remain incomplete (e.g. the cyclic A↔B case), the loop returns
immediately with the decomposition and context unchanged (zero progress)
and reports partial completion through a single `execution_blocked` event,
instead of looping forever or raising. -/
theorem C9_gating_and_deadlock :
    (∀ (d : TaskDecomposition) (t : Subtask), t ∈ get_ready_tasks d →
      t.status = "pending" ∧
      ∀ dep ∈ (alistGet d.dependencies t.id).getD [],
        (alistGet d.completed dep).isSome) ∧
    (∀ (agents : List AgentRole) (ao : String → Except String AgentResult)
       (fuel : Nat) (d : TaskDecomposition) (ctx : Ctx),
      get_ready_tasks d = [] →
      d.completed.length ≠ d.subtasks.length →
      wave_loop agents ao (fuel + 1) d ctx =
        ⟨d, ctx,
          [.execution_blocked d.completed.length d.subtasks.length]⟩) := by
  constructor
  · intro d t ht
    rw [get_ready_tasks, List.mem_filter] at ht
    obtain ⟨-, h⟩ := ht
    simp only [decide_eq_true_eq, List.all_eq_true, Bool.and_eq_true] at h
    exact ⟨h.1, fun dep hdep => h.2 dep hdep⟩
  · intro agents ao fuel d ctx hready hlen
    simp [wave_loop, hready, hlen]

/-- C9 witness: the gating fact applied to a concrete decomposition whose
gated subtask became ready only after both dependencies completed (one of
them with a failure), and the deadlock fact applied to the concrete cyclic
A↔B decomposition with the source's default `max_steps = 15`. -/
theorem C9_gating_and_deadlock_witness :
    ((⟨"t_c", "third", .analyst, "pending"⟩ : Subtask).status = "pending" ∧
      ∀ dep ∈ (alistGet gatedDecomp.dependencies "t_c").getD [],
        (alistGet gatedDecomp.completed dep).isSome) ∧
    wave_loop [] aoMixed 15 cyclicDecomp [] =
      ⟨cyclicDecomp, [], [.execution_blocked 0 2]⟩ :=
  ⟨C9_gating_and_deadlock.1 gatedDecomp ⟨"t_c", "third", .analyst, "pending"⟩
      (by decide),
   C9_gating_and_deadlock.2 [] aoMixed 14 cyclicDecomp [] (by decide)
      (by decide)⟩

/-! ## C10: failed results never block dependents; sources of deadlock -/

/-- C10: (1) `mark_completed` records the result under the subtask id in
`completed` whatever its `success` flag is; (2) a pending subtask all of
whose dependency ids are keys of `completed` — regardless of whether those
results succeeded or failed — is in the ready set, so an upstream failure
never blocks its dependents; (3) if the dependency graph is acyclic
(witnessed by a rank function strictly decreasing along dependency edges)
and every referenced dependency id belongs to some subtask, then — under
the loop invariant tying a subtask's pending status to its absence from
`completed` — an empty ready set forces every subtask to be finished: a
dependency deadlock can arise only from cycles or from references to
nonexistent subtask ids. -/
theorem C10_failed_deps_and_deadlock_sources :
    (∀ (d : TaskDecomposition) (tid : String) (r : AgentResult),
      alistGet (mark_completed d tid r).completed tid = some r) ∧
    (∀ (d : TaskDecomposition) (t : Subtask), t ∈ d.subtasks →
      t.status = "pending" →
      (∀ dep ∈ (alistGet d.dependencies t.id).getD [],
        (alistGet d.completed dep).isSome) →
      t ∈ get_ready_tasks d) ∧
    (∀ (d : TaskDecomposition) (rank : String → Nat),
      (∀ t ∈ d.subtasks, ∀ dep ∈ (alistGet d.dependencies t.id).getD [],
        rank dep < rank t.id) →
      (∀ t ∈ d.subtasks, ∀ dep ∈ (alistGet d.dependencies t.id).getD [],
        ∃ u ∈ d.subtasks, u.id = dep) →
      (∀ t ∈ d.subtasks,
        (t.status = "pending" ↔ alistGet d.completed t.id = none)) →
      get_ready_tasks d = [] →
      ∀ t ∈ d.subtasks, t.status ≠ "pending") := by
  have hmark : ∀ (d : TaskDecomposition) (tid : String) (r : AgentResult),
      alistGet (mark_completed d tid r).completed tid = some r := by
    intro d tid r
    simp [mark_completed, alistGet_alistSet_self]
  have hready : ∀ (d : TaskDecomposition) (t : Subtask), t ∈ d.subtasks →
      t.status = "pending" →
      (∀ dep ∈ (alistGet d.dependencies t.id).getD [],
        (alistGet d.completed dep).isSome) →
      t ∈ get_ready_tasks d := by
    intro d t ht hp hdeps
    rw [get_ready_tasks, List.mem_filter]
    refine ⟨ht, ?_⟩
    simp only [decide_eq_true_eq, List.all_eq_true, Bool.and_eq_true]
    exact ⟨hp, fun dep hdep => hdeps dep hdep⟩
  refine ⟨hmark, hready, ?_⟩
  intro d rank hrank hex hcons hempty
  have key : ∀ (n : Nat) (t : Subtask), t ∈ d.subtasks → rank t.id < n →
      t.status = "pending" → False := by
    intro n
    induction n with
    | zero => intro t _ h _; omega
    | succ n ih =>
      intro t ht hlt hp
      have hnin : t ∉ get_ready_tasks d := by rw [hempty]; simp
      have hmiss : ¬ (∀ dep ∈ (alistGet d.dependencies t.id).getD [],
          (alistGet d.completed dep).isSome) :=
        fun hall => hnin (hready d t ht hp hall)
      push_neg at hmiss
      obtain ⟨dep, hdep, hnone⟩ := hmiss
      obtain ⟨u, hu, hid⟩ := hex t ht dep hdep
      have hupend : u.status = "pending" := by
        rw [hcons u hu, hid]
        cases h : alistGet d.completed dep with
        | none => rfl
        | some x => exact absurd (by simp [h]) hnone
      have hur : rank u.id < n := by
        have := hrank t ht dep hdep
        rw [hid]
        omega
      exact ih u hu hur hupend
  intro t ht hp
  exact key (rank t.id + 1) t ht (by omega) hp

/-- C10 witness: applied to `gatedDecomp` — `t_b`'s failed result is
recorded in `completed`, and the dependent `t_c` is ready despite that
failure — and a deadlock-freedom instance on gatedDecomp is not needed
since its ready set is nonempty; part 3 is instead witnessed on the
decomposition obtained by completing `t_c`, whose ready set is empty with
nothing pending. -/
theorem C10_failed_deps_and_deadlock_sources_witness :
    alistGet gatedDecomp.completed "t_b" =
      some { success := false, error := some "bad" } ∧
    (⟨"t_c", "third", .analyst, "pending"⟩ : Subtask) ∈
      get_ready_tasks gatedDecomp ∧
    (∀ t ∈ (mark_completed gatedDecomp "t_c"
        { success := true, output := "done" }).subtasks,
      t.status ≠ "pending") :=
  ⟨C10_failed_deps_and_deadlock_sources.1
      (mark_completed gatedBase "t_a" { success := true, output := "ok" })
      "t_b" { success := false, error := some "bad" },
   C10_failed_deps_and_deadlock_sources.2.1 gatedDecomp
      ⟨"t_c", "third", .analyst, "pending"⟩ (by decide) rfl (by decide),
   C10_failed_deps_and_deadlock_sources.2.2
      (mark_completed gatedDecomp "t_c" { success := true, output := "done" })
      (fun s => if s = "t_c" then 1 else 0)
      (by decide) (by decide) (by decide) (by decide)⟩

/-! ## C7: failure modes of `schedule()` -/

/-- C7 counterexample: with the backend available, a `date` trigger whose
timestamp 100 lies in the past (now = 1000) is not rejected — `schedule`
registers the job and returns the task, whose `next_run` is the past
date — rather than returning `None`; and a malformed date string makes
`schedule` raise the parse `ValueError` to the caller instead of
returning `None`. -/
theorem C7_counterexample :
    ((schedule isoFix nrFix {} "wf1" "nightly" "date"
        [("run_date", ConfigVal.time 100)] [] "tid1" 1000).map
      (fun p => p.2.map (·.next_run))) = .ok (some (some 100)) ∧
    (schedule isoFix nrFix {} "wf1" "oops" "date"
        [("run_date", ConfigVal.str "garbage")] [] "tid2" 1000) =
      .error "ValueError" := ⟨rfl, rfl⟩

/-- C7 (amended): `schedule()` returns `None` when the scheduling backend
is missing or the `trigger_type` is unknown; but an invalid trigger config
is not absorbed — a malformed date string raises the parse error to the
caller — and a past-date `date` trigger is not rejected at registration
time: the job is registered and the task is returned with `next_run`
computed from the (past) date trigger. -/
theorem C7_schedule_failure_modes
    (fromiso : String → Except String Nat) (nr : Trigger → Option Nat)
    (st : SchedState) (wid nm task_id : String) (cfg : TriggerConfig)
    (vars : Ctx) (now : Nat) :
    (st.scheduler_available = false →
      ∀ tt, schedule fromiso nr st wid nm tt cfg vars task_id now =
        .ok (st, none)) ∧
    (∀ tt, st.scheduler_available = true →
      tt ≠ "cron" → tt ≠ "interval" → tt ≠ "date" →
      schedule fromiso nr st wid nm tt cfg vars task_id now =
        .ok (st, none)) ∧
    (∀ s e, st.scheduler_available = true →
      alistGet cfg "run_date" = some (.str s) → fromiso s = .error e →
      schedule fromiso nr st wid nm "date" cfg vars task_id now =
        .error e) ∧
    (∀ tpast, st.scheduler_available = true →
      alistGet cfg "run_date" = some (.time tpast) → tpast < now →
      alistGet st.jobs task_id = none →
      ∃ st' task, schedule fromiso nr st wid nm "date" cfg vars task_id now
          = .ok (st', some task) ∧
        task.next_run = nr (.date (some tpast)) ∧
        alistGet st'.jobs task_id ≠ none) := by
  refine ⟨?_, ?_, ?_, ?_⟩
  · intro h tt
    simp [schedule, h]
  · intro tt hav h1 h2 h3
    simp [schedule, create_trigger, hav, h1, h2, h3]
  · intro s e hav hrd hiso
    simp [schedule, create_trigger, hav, hrd, hiso, Except.map]
  · intro tpast hav hrd hlt hfresh
    refine ⟨persist_task { st with
        jobs := alistSet st.jobs task_id
          ⟨task_id, nm, .date (some tpast), nr (.date (some tpast))⟩,
        scheduled_tasks := alistSet st.scheduled_tasks task_id
          { id := task_id, workflow_id := wid, name := nm,
            trigger_type := "date", trigger_config := cfg,
            «variables» := vars, created_at := now,
            next_run := nr (.date (some tpast)) } }
      { id := task_id, workflow_id := wid, name := nm,
        trigger_type := "date", trigger_config := cfg, «variables» := vars,
        created_at := now, next_run := nr (.date (some tpast)) },
      { id := task_id, workflow_id := wid, name := nm,
        trigger_type := "date", trigger_config := cfg, «variables» := vars,
        created_at := now, next_run := nr (.date (some tpast)) },
      ?_, rfl, ?_⟩
    · simp [schedule, create_trigger, add_job, hav, hrd, hfresh]
    · simp [(persist_task_jobs _ _).1, alistGet_alistSet_self]

/-- C7 witness: the amended theorem applied to a disabled backend, an
unknown trigger type, a malformed date string, and a concrete past date. -/
theorem C7_schedule_failure_modes_witness :
    schedule isoFix nrFix { scheduler_available := false } "wf1" "n" "cron"
        [] [] "tid0" 5 = .ok ({ scheduler_available := false }, none) ∧
    schedule isoFix nrFix {} "wf1" "n" "weekly" [] [] "tid0" 5 =
      .ok ({}, none) ∧
    schedule isoFix nrFix {} "wf1" "n" "date"
        [("run_date", ConfigVal.str "garbage")] [] "tid2" 1000 =
      .error "ValueError" ∧
    ∃ st' task, schedule isoFix nrFix {} "wf1" "n" "date"
        [("run_date", ConfigVal.time 100)] [] "tid1" 1000 =
        .ok (st', some task) ∧
      task.next_run = nrFix (.date (some 100)) ∧
      alistGet st'.jobs "tid1" ≠ none :=
  ⟨(C7_schedule_failure_modes isoFix nrFix { scheduler_available := false }
      "wf1" "n" "tid0" [] [] 5).1 rfl "cron",
   (C7_schedule_failure_modes isoFix nrFix {} "wf1" "n" "tid0" [] [] 5).2.1
      "weekly" rfl (by decide) (by decide) (by decide),
   (C7_schedule_failure_modes isoFix nrFix {} "wf1" "n" "tid2"
      [("run_date", ConfigVal.str "garbage")] [] 1000).2.2.1 "garbage"
      "ValueError" rfl rfl rfl,
   (C7_schedule_failure_modes isoFix nrFix {} "wf1" "n" "tid1"
      [("run_date", ConfigVal.time 100)] [] 1000).2.2.2 100 rfl rfl
      (by decide) rfl⟩

/-! ## C6: scheduler recovery -/

/-- For a well-formed row the expired-date check returns `rowExpired`
without raising. -/
theorem expired_date_of_valid (fromiso : String → Except String Nat)
    (now : Nat) (row : ScheduledTask)
    (hv : validRow fromiso row = true) :
    expired_date fromiso now row.trigger_type row.trigger_config =
      .ok (rowExpired fromiso now row) := by
  simp only [validRow, Bool.and_eq_true, Bool.or_eq_true, beq_iff_eq,
    bne_iff_ne, ne_eq] at hv
  obtain ⟨htype, hdate⟩ := hv
  by_cases hd : row.trigger_type = "date"
  · have hmatch : (match alistGet row.trigger_config "run_date" with
        | some (ConfigVal.str s) => s != "" && (fromiso s).toOption.isSome
        | some (ConfigVal.int _) => false
        | _ => true) = true := by
      rcases hdate with h | h
      · exact absurd hd h
      · exact h
    rcases hrd : alistGet row.trigger_config "run_date" with _ | (s | n | t)
    · simp [expired_date, rowExpired, rowRunDate, hd, hrd]
    · rw [hrd] at hmatch
      simp only [Bool.and_eq_true, bne_iff_ne, ne_eq] at hmatch
      obtain ⟨hne, hsome⟩ := hmatch
      cases hfs : fromiso s with
      | ok t =>
        simp [expired_date, rowExpired, rowRunDate, hd, hrd, hne, hfs,
          Except.map, Except.toOption]
      | error e => rw [hfs] at hsome; simp [Except.toOption] at hsome
    · rw [hrd] at hmatch; simp at hmatch
    · simp [expired_date, rowExpired, rowRunDate, hd, hrd]
  · simp [expired_date, rowExpired, hd]

/-- For a well-formed row `_create_trigger` succeeds with the trigger
named by `rowTrigger`. -/
theorem create_trigger_of_valid (fromiso : String → Except String Nat)
    (row : ScheduledTask) (hv : validRow fromiso row = true) :
    create_trigger true fromiso row.trigger_type row.trigger_config =
      .ok (some (rowTrigger fromiso row)) := by
  simp only [validRow, Bool.and_eq_true, Bool.or_eq_true, beq_iff_eq,
    bne_iff_ne, ne_eq] at hv
  obtain ⟨htype, hdate⟩ := hv
  rcases htype with (hc | hi) | hd
  · simp [create_trigger, rowTrigger, hc]
  · simp [create_trigger, rowTrigger, hi]
  · have hmatch : (match alistGet row.trigger_config "run_date" with
        | some (ConfigVal.str s) => s != "" && (fromiso s).toOption.isSome
        | some (ConfigVal.int _) => false
        | _ => true) = true := by
      rcases hdate with h | h
      · exact absurd hd h
      · exact h
    rcases hrd : alistGet row.trigger_config "run_date" with _ | (s | n | t)
    · simp [create_trigger, rowTrigger, rowRunDate, hd, hrd]
    · rw [hrd] at hmatch
      simp only [Bool.and_eq_true, bne_iff_ne, ne_eq] at hmatch
      obtain ⟨hne, hsome⟩ := hmatch
      cases hfs : fromiso s with
      | ok t =>
        simp [create_trigger, rowTrigger, rowRunDate, hd, hrd, hne, hfs,
          Except.map, Except.toOption]
      | error e => rw [hfs] at hsome; simp [Except.toOption] at hsome
    · rw [hrd] at hmatch; simp at hmatch
    · simp [create_trigger, rowTrigger, rowRunDate, hd, hrd]

/-- Reloading one well-formed row: an expired date trigger is skipped, a
duplicate job id makes `add_job` raise and the row is dropped, and
otherwise exactly one job and one in-memory task are registered, the
task's `next_run` recomputed from the job. -/
theorem load_task_of_valid (fromiso : String → Except String Nat)
    (nr : Trigger → Option Nat) (now : Nat) (st : SchedState)
    (row : ScheduledTask) (hv : validRow fromiso row = true) :
    load_task true fromiso nr now st row =
      if rowExpired fromiso now row then st
      else if (alistGet st.jobs row.id).isSome then st
      else { st with
        jobs := alistSet st.jobs row.id (reloadJob fromiso nr row),
        scheduled_tasks := alistSet st.scheduled_tasks row.id
          (reloadTask fromiso nr row) } := by
  simp only [load_task, expired_date_of_valid fromiso now row hv,
    create_trigger_of_valid fromiso row hv, add_job]
  cases hex : rowExpired fromiso now row
  · cases hjob : (alistGet st.jobs row.id).isSome <;>
      simp [hex, hjob, Except.bind, reloadJob, reloadTask, bind, pure,
        Except.pure]
  · simp [hex, Except.bind, bind, pure, Except.pure]

/-- Reloading well-formed rows with pairwise-distinct ids that are fresh
for the current state appends exactly one job and one in-memory task per
non-expired row. -/
theorem load_fold_characterization (fromiso : String → Except String Nat)
    (nr : Trigger → Option Nat) (now : Nat) :
    ∀ (rows : List ScheduledTask) (st : SchedState),
    (∀ row ∈ rows, validRow fromiso row = true) →
    (rows.map (·.id)).Nodup →
    (∀ row ∈ rows, alistGet st.jobs row.id = none) →
    (∀ row ∈ rows, alistGet st.scheduled_tasks row.id = none) →
    rows.foldl (load_task true fromiso nr now) st =
      { st with
        jobs := st.jobs ++
          (rows.filter (fun r => !rowExpired fromiso now r)).map
            (fun r => (r.id, reloadJob fromiso nr r)),
        scheduled_tasks := st.scheduled_tasks ++
          (rows.filter (fun r => !rowExpired fromiso now r)).map
            (fun r => (r.id, reloadTask fromiso nr r)) } := by
  intro rows
  induction rows with
  | nil => intro st _ _ _ _; simp
  | cons row rows ih =>
    intro st hv hnd hfj hft
    simp only [List.map_cons, List.nodup_cons, List.mem_map] at hnd
    obtain ⟨hnotin, hnd⟩ := hnd
    have hne : ∀ r ∈ rows, r.id ≠ row.id := by
      intro r hr heq
      exact hnotin ⟨r, hr, heq⟩
    simp only [List.foldl_cons]
    rw [load_task_of_valid fromiso nr now st row (hv row (by simp))]
    by_cases hex : rowExpired fromiso now row
    · rw [if_pos hex]
      rw [ih st (fun r hr => hv r (by simp [hr])) hnd
        (fun r hr => hfj r (by simp [hr])) (fun r hr => hft r (by simp [hr]))]
      simp [hex]
    · rw [if_neg hex]
      rw [if_neg (by simp [hfj row (by simp)])]
      rw [ih _ (fun r hr => hv r (by simp [hr])) hnd
        (fun r hr => by
          simpa [alistGet_alistSet_ne _ _ _ _ (Ne.symm (hne r hr))] using
            hfj r (by simp [hr]))
        (fun r hr => by
          simpa [alistGet_alistSet_ne _ _ _ _ (Ne.symm (hne r hr))] using
            hft r (by simp [hr]))]
      rw [alistSet_fresh st.jobs row.id _ (hfj row (by simp)),
        alistSet_fresh st.scheduled_tasks row.id _ (hft row (by simp))]
      simp [hex, List.append_assoc]

/-- Lookup in an association list keyed by row ids. -/
theorem alistGet_map_rows {b : Type} (f : ScheduledTask → b) :
    ∀ (l : List ScheduledTask) (k : String),
    alistGet (l.map (fun r => (r.id, f r))) k =
      (l.find? (fun r => r.id == k)).map f := by
  intro l
  induction l with
  | nil => intro k; rfl
  | cons r rest ih =>
    intro k
    by_cases h : r.id = k <;> simp [alistGet, List.find?_cons, h, ih]

/-- With distinct ids, `find?` by id retrieves the member itself. -/
theorem rows_find_of_mem (l : List ScheduledTask) (row : ScheduledTask)
    (hmem : row ∈ l) (hnd : (l.map (·.id)).Nodup) :
    l.find? (fun r => r.id == row.id) = some row := by
  induction l with
  | nil => cases hmem
  | cons r rest ih =>
    simp only [List.map_cons, List.nodup_cons, List.mem_map] at hnd
    obtain ⟨hnotin, hnd⟩ := hnd
    rcases List.mem_cons.mp hmem with rfl | hmem'
    · simp [List.find?_cons]
    · have hne : r.id ≠ row.id := by
        intro heq
        exact hnotin ⟨row, hmem', heq.symm⟩
      simp [List.find?_cons, hne, ih hmem' hnd]

/-- `find?` by an id no row carries returns nothing. -/
theorem rows_find_of_not_mem (l : List ScheduledTask) (k : String)
    (h : ∀ r ∈ l, r.id ≠ k) :
    l.find? (fun r => r.id == k) = none := by
  induction l with
  | nil => rfl
  | cons r rest ih =>
    simp [List.find?_cons, h r (by simp), ih (fun r hr => h r (by simp [hr]))]

/-- A fold by a function that fixes the accumulator on every element is
the identity. -/
theorem foldl_fixed {a b : Type} (f : a → b → a) (x : a) (l : List b)
    (h : ∀ y ∈ l, f x y = x) : l.foldl f x = x := by
  induction l with
  | nil => rfl
  | cons y l ih =>
    rw [List.foldl_cons, h y (by simp)]
    exact ih (fun z hz => h z (by simp [hz]))

/-- C6: from a fresh scheduler state over persisted rows with unique ids
as `schedule()` writes them (known trigger type, well-formed `run_date`),
after `load_persisted_tasks`: (1) the live job table has no duplicate
registration, and every enabled, non-expired row has exactly its one job;
(2) every task of the repopulated in-memory table has `next_run` equal to
the `next_run_time` of its live job; (3) an enabled `date` row whose fire
time has passed is skipped — no job and no in-memory task exist for it, so
it cannot fire retroactively; (4) running `load_persisted_tasks` again is
the identity: re-registering an already-registered task id raises
`ConflictingIdError` inside the per-row `try`, which is absorbed, so no
duplicate job is ever created. -/
theorem C6_recovery (fromiso : String → Except String Nat)
    (nr : Trigger → Option Nat) (now : Nat) (db : List ScheduledTask)
    (hv : ∀ row ∈ db, row.enabled = true → validRow fromiso row = true)
    (hnd : ((db.filter (·.enabled)).map (·.id)).Nodup) :
    (((load_persisted_tasks fromiso nr now { db := db }).jobs.map
        (·.1)).Nodup ∧
      ∀ row ∈ db, row.enabled = true →
        rowExpired fromiso now row = false →
        alistGet (load_persisted_tasks fromiso nr now
            { db := db }).jobs row.id =
          some (reloadJob fromiso nr row)) ∧
    (∀ id task,
      alistGet (load_persisted_tasks fromiso nr now
          { db := db }).scheduled_tasks id = some task →
      ∃ job, alistGet (load_persisted_tasks fromiso nr now
          { db := db }).jobs id = some job ∧
        task.next_run = job.next_run_time) ∧
    (∀ row ∈ db, row.enabled = true → rowExpired fromiso now row = true →
      alistGet (load_persisted_tasks fromiso nr now
          { db := db }).jobs row.id = none ∧
      alistGet (load_persisted_tasks fromiso nr now
          { db := db }).scheduled_tasks row.id = none) ∧
    load_persisted_tasks fromiso nr now
        (load_persisted_tasks fromiso nr now { db := db }) =
      load_persisted_tasks fromiso nr now { db := db } := by
  have hval : ∀ row ∈ db.filter (·.enabled),
      validRow fromiso row = true := by
    intro r hr
    exact hv r (List.mem_of_mem_filter hr) (List.of_mem_filter hr)
  have hF : load_persisted_tasks fromiso nr now ({ db := db } : SchedState) =
      { ({ db := db } : SchedState) with
        jobs := ((db.filter (·.enabled)).filter
            (fun r => !rowExpired fromiso now r)).map
          (fun r => (r.id, reloadJob fromiso nr r)),
        scheduled_tasks := ((db.filter (·.enabled)).filter
            (fun r => !rowExpired fromiso now r)).map
          (fun r => (r.id, reloadTask fromiso nr r)) } := by
    have hchar := load_fold_characterization fromiso nr now
      (db.filter (·.enabled)) { db := db } hval hnd
      (fun r _ => rfl) (fun r _ => rfl)
    simp only [load_persisted_tasks]
    rw [if_neg (by simp)]
    rw [hchar]
    simp
  have hLnd : ((((db.filter (·.enabled)).filter
      (fun r => !rowExpired fromiso now r)).map (·.id))).Nodup :=
    ((List.filter_sublist _).map (fun r : ScheduledTask => r.id)).nodup hnd
  have hjob_some : ∀ row ∈ db.filter (·.enabled),
      rowExpired fromiso now row = false →
      alistGet (load_persisted_tasks fromiso nr now
          ({ db := db } : SchedState)).jobs row.id =
        some (reloadJob fromiso nr row) := by
    intro row hmem hex
    have hmemL : row ∈ (db.filter (·.enabled)).filter
        (fun r => !rowExpired fromiso now r) :=
      List.mem_filter.mpr ⟨hmem, by simp [hex]⟩
    rw [hF]
    simp only
    rw [alistGet_map_rows, rows_find_of_mem _ row hmemL hLnd]
    rfl
  refine ⟨⟨?_, ?_⟩, ?_, ?_, ?_⟩
  · rw [hF]
    simp only [List.map_map]
    exact hLnd
  · intro row hrow hen hex
    exact hjob_some row (List.mem_filter.mpr ⟨hrow, by simp [hen]⟩) hex
  · intro id task h
    rw [hF] at h ⊢
    simp only at h ⊢
    rw [alistGet_map_rows] at h
    cases hfind : ((db.filter (·.enabled)).filter
        (fun r => !rowExpired fromiso now r)).find?
        (fun r => r.id == id) with
    | none => rw [hfind] at h; cases h
    | some row =>
      rw [hfind] at h
      refine ⟨reloadJob fromiso nr row, ?_, ?_⟩
      · rw [alistGet_map_rows, hfind]; rfl
      · cases h; rfl
  · intro row hrow hen hex
    have hinj := List.inj_on_of_nodup_map hnd
    have hni : ∀ r ∈ (db.filter (·.enabled)).filter
        (fun r => !rowExpired fromiso now r), r.id ≠ row.id := by
      intro r hr heq
      have hr1 := List.mem_of_mem_filter hr
      have hr2 := List.of_mem_filter hr
      have : r = row := hinj hr1
        (List.mem_filter.mpr ⟨hrow, by simp [hen]⟩) heq
      rw [this] at hr2
      simp [hex] at hr2
    constructor <;>
      · rw [hF]
        simp only
        rw [alistGet_map_rows, rows_find_of_not_mem _ _ hni]
        rfl
  · conv in load_persisted_tasks fromiso nr now
        (load_persisted_tasks fromiso nr now { db := db }) =>
      rw [load_persisted_tasks]
    rw [if_neg (by rw [hF]; simp)]
    have hdb2 : (load_persisted_tasks fromiso nr now
        ({ db := db } : SchedState)).db = db := by rw [hF]
    have hav2 : (load_persisted_tasks fromiso nr now
        ({ db := db } : SchedState)).scheduler_available = true := by
      rw [hF]
    rw [hdb2, hav2]
    apply foldl_fixed
    intro row hmem
    rw [load_task_of_valid fromiso nr now _ row (hval row hmem)]
    by_cases hex : rowExpired fromiso now row = true
    · rw [if_pos hex]
    · rw [if_neg hex]
      rw [if_pos (by
        rw [hjob_some row hmem (by simpa using hex)]
        rfl)]


/-- C6 witness: the recovery theorem applied to a concrete database with
one enabled cron row and one enabled, already-expired date row. -/
theorem C6_recovery_witness :
    alistGet (load_persisted_tasks isoFix nrFix 2000000000
        { db := [rowCron, rowPast] }).jobs "r1" =
      some (reloadJob isoFix nrFix rowCron) ∧
    (alistGet (load_persisted_tasks isoFix nrFix 2000000000
        { db := [rowCron, rowPast] }).jobs "r2" = none ∧
      alistGet (load_persisted_tasks isoFix nrFix 2000000000
        { db := [rowCron, rowPast] }).scheduled_tasks "r2" = none) ∧
    load_persisted_tasks isoFix nrFix 2000000000
        (load_persisted_tasks isoFix nrFix 2000000000
          { db := [rowCron, rowPast] }) =
      load_persisted_tasks isoFix nrFix 2000000000
        { db := [rowCron, rowPast] } :=
  ⟨(C6_recovery isoFix nrFix 2000000000 [rowCron, rowPast] (by decide)
      (by decide)).1.2 rowCron (by decide) rfl (by decide),
   (C6_recovery isoFix nrFix 2000000000 [rowCron, rowPast] (by decide)
      (by decide)).2.2.1 rowPast (by decide) rfl (by decide),
   (C6_recovery isoFix nrFix 2000000000 [rowCron, rowPast] (by decide)
      (by decide)).2.2.2⟩

end AiTaskAgent
